import Mathlib

/-!
Verification of the two-phase-commit (2PC) simulator: a shallow embedding of
the coordinator (src/coordinator.rs), participant (src/participant.rs) and
client (src/client.rs) state logic, together with theorems about the protocol
properties the specification states.

Probabilities and the uniform draws compared against them are `f64` values in
the source; here they are modelled as rationals (`ℚ`).  Only order comparisons
and exact equality with `1.0` are ever performed on them in the source, and on
the non-NaN values that actually occur these agree with the rational order, so
the model is faithful for every comparison the code makes.

Randomness, message arrival and timeouts are modelled as oracles: each
blocking receive is fed the outcome (`ok`/`timeout`/`disconnected`) that the
corresponding Rust `recv`/`recv_timeout` call returns.
-/

namespace TwoPC

/-- Modelled from the spec: the message kinds of `message.rs`, which is
declared in `main.rs` but not present under `src/`.  Spec §3 lists exactly
these nine kinds. -/
inductive MessageType where
  | ClientRequest
  | CoordinatorPropose
  | ParticipantVoteCommit
  | ParticipantVoteAbort
  | CoordinatorCommit
  | CoordinatorAbort
  | ClientResultCommit
  | ClientResultAbort
  | CoordinatorExit
  deriving DecidableEq, Repr

/-- Modelled from the spec: the protocol message record of `message.rs`
(not present under `src/`).  Spec §3: fields kind (`mtype`), `txid`,
`senderid`, `opid`.  The internal unique message identifier the spec also
mentions is omitted: no claim depends on it and it does not influence any
branch of the code under `src/`. -/
structure ProtocolMessage where
  mtype : MessageType
  txid : Int
  senderid : String
  opid : Int
  deriving DecidableEq, Repr

/-- Modelled from the spec: `ProtocolMessage::generate` of `message.rs`
builds a message from kind, txid, senderid and opid. -/
def ProtocolMessage.generate (t : MessageType) (txid : Int) (senderid : String)
    (opid : Int) : ProtocolMessage :=
  { mtype := t, txid := txid, senderid := senderid, opid := opid }

/-- Modelled from the spec: one record of the operation log of `oplog.rs`
(not present under `src/`).  Spec §3: each record stores
(kind, txid, senderid, opid); the per-log sequence number is the list
position here. -/
structure LogRecord where
  mtype : MessageType
  txid : Int
  senderid : String
  opid : Int
  deriving DecidableEq, Repr

/-- Modelled from the spec: the operation log of `oplog.rs` is an
append-only ordered sequence of records. -/
abbrev OpLog := List LogRecord

/-- Modelled from the spec: `OpLog::append(kind, txid, senderid, opid)`
appends one record at the end of the log. -/
def OpLog.append (l : OpLog) (t : MessageType) (txid : Int) (senderid : String)
    (opid : Int) : OpLog :=
  l ++ [⟨t, txid, senderid, opid⟩]

/-- Outcome of one `recv_timeout` (or plain `recv`) call on an mpsc
receiver, as seen by the caller: a message, or one of the two error
variants of `RecvTimeoutError`. -/
inductive RecvOutcome where
  | ok (m : ProtocolMessage)
  | timeout
  | disconnected
  deriving DecidableEq, Repr

/-- `RequestStatus` from `message.rs` as used by
`Participant::perform_operation`. -/
inductive RequestStatus where
  | Committed
  | Aborted
  | Unknown
  deriving DecidableEq, Repr

/-! ## Coordinator (src/coordinator.rs) -/

/-- The coordinator state fields that the protocol loop reads or writes:
the log, the `all_voted` round flag and the aggregate counters
(`successful`, `failed`, `unknown`) plus `num_req_handled`
(coordinator.rs lines 39-57). -/
structure CoordState where
  log : OpLog
  allVoted : Bool
  successful : Int
  failed : Int
  unknown : Int
  numReqHandled : Int
  deriving DecidableEq, Repr

/-- `Coordinator::new` (coordinator.rs lines 87-106): empty log,
`all_voted = true`, all counters zero. -/
def coordInit : CoordState :=
  { log := [], allVoted := true, successful := 0, failed := 0, unknown := 0,
    numReqHandled := 0 }

/-- The per-participant timeout, in milliseconds, of the coordinator's
blocking receive for votes (`Duration::from_millis(500)`,
coordinator.rs line 270). -/
def voteTimeoutMillis : Nat := 500

/-- The vote-collection loop of `Coordinator::protocol`
(coordinator.rs lines 268-283): fold over the per-participant receive
outcomes; an `Ok` message of kind `ParticipantVoteAbort` clears
`all_voted`, any other `Ok` message leaves it unchanged, and either
receive error (`Timeout` or `Disconnected`) clears it. -/
def collectVotes (allVoted : Bool) (votes : List RecvOutcome) : Bool :=
  votes.foldl
    (fun acc r =>
      match r with
      | .ok v => if v.mtype = .ParticipantVoteAbort then false else acc
      | .timeout => false
      | .disconnected => false)
    allVoted

/-- Result of one transaction round of `Coordinator::protocol`: the new
coordinator state, the decision message broadcast to the participants and
the result message sent to the originating client. -/
structure RoundResult where
  state : CoordState
  decision : ProtocolMessage
  clientResult : ProtocolMessage
  deriving DecidableEq, Repr

/-- One transaction round of `Coordinator::protocol`
(coordinator.rs lines 250-326), for a picked-up client request `pm` and
per-participant vote-receive outcomes `votes` (in the order the
participant table is iterated):
log the request, log the synthesized `CoordinatorPropose`, collect the
votes, log and build the decision (`CoordinatorCommit` and
`successful + 1` if all voted, else `CoordinatorAbort` and `failed + 1`),
log and build the matching client result, reset `all_voted` to `true`
and increment `num_req_handled`.  The `assert_eq!(pm.mtype,
MessageType::ClientRequest)` on line 254 is modelled by returning `none`
(a panic: the round does not complete) when the kind differs.  Sends do
not change any of the modelled state. -/
def coordRound (st : CoordState) (pm : ProtocolMessage)
    (votes : List RecvOutcome) : Option RoundResult :=
  let log1 := OpLog.append st.log pm.mtype pm.txid pm.senderid pm.opid
  if pm.mtype = .ClientRequest then
    let prepare := ProtocolMessage.generate .CoordinatorPropose pm.txid
      "coordinator" pm.opid
    let log2 := OpLog.append log1 prepare.mtype prepare.txid prepare.senderid
      prepare.opid
    let allVoted := collectVotes st.allVoted votes
    let mes :=
      if allVoted then
        ProtocolMessage.generate .CoordinatorCommit pm.txid "coordinator" pm.opid
      else
        ProtocolMessage.generate .CoordinatorAbort pm.txid "coordinator" pm.opid
    let succ := if allVoted then st.successful + 1 else st.successful
    let fail := if allVoted then st.failed else st.failed + 1
    let log3 := OpLog.append log2 mes.mtype mes.txid mes.senderid mes.opid
    let clRes :=
      if allVoted then
        ProtocolMessage.generate .ClientResultCommit pm.txid "coordinator" pm.opid
      else
        ProtocolMessage.generate .ClientResultAbort pm.txid "coordinator" pm.opid
    let log4 := OpLog.append log3 clRes.mtype clRes.txid clRes.senderid clRes.opid
    some
      { state :=
          { log := log4, allVoted := true, successful := succ, failed := fail,
            unknown := st.unknown, numReqHandled := st.numReqHandled + 1 },
        decision := mes, clientResult := clRes }
  else none

/-- The request-handling loop of `Coordinator::protocol`
(coordinator.rs lines 246-331), as a fold of `coordRound` over the
sequence of picked-up requests with their vote outcomes; `none` if any
round panics on the `ClientRequest` assertion. -/
def runRounds (st : CoordState) :
    List (ProtocolMessage × List RecvOutcome) → Option CoordState
  | [] => some st
  | (pm, votes) :: rest =>
    match coordRound st pm votes with
    | some r => runRounds r.state rest
    | none => none

/-- `Coordinator::report_status` (coordinator.rs lines 230-235): the
triple (successful, failed, unknown) printed on exit. -/
def reportStatus (st : CoordState) : Int × Int × Int :=
  (st.successful, st.failed, st.unknown)

/-- Number of polling rounds of `Coordinator::recv_request`
(`for _i in 0..10`, coordinator.rs line 191). -/
def recvRequestRounds : Nat := 10

/-- Per-endpoint timeout, in milliseconds, of each poll in
`Coordinator::recv_request` (`Duration::from_millis(10)`,
coordinator.rs line 194). -/
def recvRequestPollMillis : Nat := 10

/-- The inner loop of `Coordinator::recv_request` over the client table
(coordinator.rs lines 192-217): poll each client endpoint once, in the
table's iteration order; return the first message received together with
that client's key; on `Timeout` or `Disconnected` move to the next
client. -/
def scanRound (names : List String) (out : String → RecvOutcome) :
    Option (ProtocolMessage × String) :=
  match names with
  | [] => none
  | n :: rest =>
    match out n with
    | .ok m => some (m, n)
    | .timeout => scanRound rest out
    | .disconnected => scanRound rest out

/-- The outer loop of `Coordinator::recv_request` starting at round `i`
with `fuel` rounds remaining.  `out i n` is the outcome the
`recv_timeout` poll of client `n` in round `i` would return. -/
def recvRequestFrom (names : List String) (out : Nat → String → RecvOutcome) :
    Nat → Nat → Option (ProtocolMessage × String)
  | _, 0 => none
  | i, fuel + 1 =>
    match scanRound names (out i) with
    | some r => some r
    | none => recvRequestFrom names out (i + 1) fuel

/-- `Coordinator::recv_request` (coordinator.rs lines 185-223): up to
`recvRequestRounds` rounds of polling the client table in iteration
order `names`; returns `(Some message, client key, found = true)` for
the first message received, else `(None, "", found = false)`. -/
def recvRequest (names : List String) (out : Nat → String → RecvOutcome) :
    Option ProtocolMessage × String × Bool :=
  match recvRequestFrom names out 0 recvRequestRounds with
  | some (m, n) => (some m, n, true)
  | none => (none, "", false)

/-- The order in which `recv_request` visits (round, client) pairs:
rounds `0..recvRequestRounds`, and within each round the client table in
iteration order. -/
def pollOrder (names : List String) : List (Nat × String) :=
  (List.range recvRequestRounds).flatMap fun i => names.map fun n => (i, n)

/-- The first successful poll in `pollOrder`, with the message received
and the polled client's key. -/
def pollFirst (names : List String) (out : Nat → String → RecvOutcome) :
    Option (ProtocolMessage × String) :=
  (pollOrder names).findSome? fun p =>
    match out p.1 p.2 with
    | .ok m => some (m, p.2)
    | .timeout => none
    | .disconnected => none

/-! ## Participant (src/participant.rs) -/

/-- The participant state fields read or written by its protocol logic
(participant.rs lines 39-51): id, log, the two probabilities, the shared
`running` flag (its current value), and the counters `successful`,
`failed`, `unknown`. -/
structure PartState where
  id : Int
  log : OpLog
  opSuccessProb : ℚ
  msgSuccessProb : ℚ
  running : Bool
  successful : Int
  failed : Int
  unknown : Int
  deriving DecidableEq, Repr

/-- `Participant::new` (participant.rs lines 76-98): empty log, counters
zero; `running` holds the value of the shared flag at construction. -/
def partInit (i : Int) (pOp pMsg : ℚ) (running : Bool) : PartState :=
  { id := i, log := [], opSuccessProb := pOp, msgSuccessProb := pMsg,
    running := running, successful := 0, failed := 0, unknown := 0 }

/-- Result of one `Participant::perform_operation` call: the new
participant state, the list of messages actually placed on the channel
to the coordinator (empty or a single vote; `send_unreliable` may drop
it), and the returned boolean `result == RequestStatus::Committed`. -/
structure PerformResult where
  state : PartState
  sent : List ProtocolMessage
  result : Bool
  deriving DecidableEq, Repr

/-- `Participant::perform_operation` (participant.rs lines 156-229).
`pm` is the received request, `x` the uniform draw of line 163, `msgX`
the draw `send_unreliable` would make (line 134), and `reply` the
message the blocking `recv` of line 177 / line 203 would return.
If `x > op_success_prob` (the "failed prepare" branch): on
`CoordinatorPropose`, log the propose and a `ParticipantVoteAbort`,
send the vote (reliably iff `msg_success_prob == 1.0`), then handle
the reply: `CoordinatorAbort` is logged and bumps `failed`, any
other kind bumps `unknown` without logging; all other request kinds
(including `CoordinatorExit`) do nothing.  Otherwise: on
`CoordinatorPropose`, the same with a `ParticipantVoteCommit` vote and
with `CoordinatorCommit` logged and bumping `successful`,
`CoordinatorAbort` logged and bumping `failed`, any other reply kind
bumping `unknown` without logging; on `CoordinatorExit`, store `false`
into `running`; any other kind does nothing. -/
def performOperation (st : PartState) (pm : ProtocolMessage) (x msgX : ℚ)
    (reply : ProtocolMessage) : PerformResult :=
  if x > st.opSuccessProb then
    match pm.mtype with
    | .CoordinatorPropose =>
      let log1 := OpLog.append st.log pm.mtype pm.txid pm.senderid pm.opid
      let vabort := ProtocolMessage.generate .ParticipantVoteAbort pm.txid
        ("participant_" ++ toString st.id) pm.opid
      let log2 := OpLog.append log1 vabort.mtype vabort.txid vabort.senderid
        vabort.opid
      let sent :=
        if st.msgSuccessProb = 1 then [vabort]
        else if msgX < st.msgSuccessProb then [vabort] else []
      match reply.mtype with
      | .CoordinatorAbort =>
        let log3 := OpLog.append log2 reply.mtype reply.txid reply.senderid
          reply.opid
        { state := { st with log := log3, failed := st.failed + 1 },
          sent := sent, result := false }
      | _ =>
        { state := { st with log := log2, unknown := st.unknown + 1 },
          sent := sent, result := false }
    | _ => { state := st, sent := [], result := false }
  else
    match pm.mtype with
    | .CoordinatorPropose =>
      let log1 := OpLog.append st.log pm.mtype pm.txid pm.senderid pm.opid
      let vcommit := ProtocolMessage.generate .ParticipantVoteCommit pm.txid
        ("participant_" ++ toString st.id) pm.opid
      let log2 := OpLog.append log1 vcommit.mtype vcommit.txid vcommit.senderid
        vcommit.opid
      let sent :=
        if st.msgSuccessProb = 1 then [vcommit]
        else if msgX < st.msgSuccessProb then [vcommit] else []
      match reply.mtype with
      | .CoordinatorCommit =>
        let log3 := OpLog.append log2 reply.mtype reply.txid reply.senderid
          reply.opid
        { state := { st with log := log3, successful := st.successful + 1 },
          sent := sent, result := true }
      | .CoordinatorAbort =>
        let log3 := OpLog.append log2 reply.mtype reply.txid reply.senderid
          reply.opid
        { state := { st with log := log3, failed := st.failed + 1 },
          sent := sent, result := false }
      | _ =>
        { state := { st with log := log2, unknown := st.unknown + 1 },
          sent := sent, result := false }
    | .CoordinatorExit =>
      { state := { st with running := false }, sent := [], result := false }
    | _ => { state := st, sent := [], result := false }

/-- One dispatched message at the top of the participant protocol loop:
the received request `pm` together with the oracle values
`perform_operation` consumes for it. -/
structure PEvent where
  pm : ProtocolMessage
  x : ℚ
  msgX : ℚ
  reply : ProtocolMessage
  deriving DecidableEq, Repr

/-- The receive loop of `Participant::protocol`
(participant.rs lines 272-287): while `running`, dispatch each received
message through `perform_operation`.  `evs` is the stream of messages
the blocking `recv` returns (the list ends where `recv` would return
`Err`, which breaks the loop). -/
def participantProtocol (st : PartState) : List PEvent → PartState
  | [] => st
  | e :: rest =>
    if st.running then
      participantProtocol (performOperation st e.pm e.x e.msgX e.reply).state rest
    else st

/-- A decision message kind: `CoordinatorCommit` or `CoordinatorAbort`. -/
def MessageType.isDecision : MessageType → Bool
  | .CoordinatorCommit => true
  | .CoordinatorAbort => true
  | _ => false

/-- The log contains a record of kind `k` for transaction `t`. -/
def logHas (l : OpLog) (k : MessageType) (t : Int) : Bool :=
  l.any fun r => r.mtype = k ∧ r.txid = t

/-! ## Client (src/client.rs) -/

/-- The client state fields read or written by its protocol logic
(client.rs lines 24-33), plus `senderClosed`, which tracks whether the
client's outbound `Sender` endpoint to the coordinator has been
dropped (closed). -/
structure ClientState where
  id : Int
  successful : Int
  failed : Int
  unknown : Int
  opid : Int
  running : Bool
  senderClosed : Bool
  deriving DecidableEq, Repr

/-- `Client::new` (client.rs lines 56-71): counters and `opid` zero;
`running` holds the value of the shared flag at construction; the
outbound endpoint is open. -/
def clientInit (i : Int) (running : Bool) : ClientState :=
  { id := i, successful := 0, failed := 0, unknown := 0, opid := 0,
    running := running, senderClosed := false }

/-- `Client::recv_result` (client.rs lines 126-146): on a received
message, `ClientResultCommit` bumps `successful`, `ClientResultAbort`
bumps `failed`, `CoordinatorExit` stores `false` into `running`, any
other kind bumps `unknown`; a receive error changes nothing. -/
def recvResult (st : ClientState) (res : Option ProtocolMessage) : ClientState :=
  match res with
  | some m =>
    match m.mtype with
    | .ClientResultCommit => { st with successful := st.successful + 1 }
    | .ClientResultAbort => { st with failed := st.failed + 1 }
    | .CoordinatorExit => { st with running := false }
    | _ => { st with unknown := st.unknown + 1 }
  | none => st

/-- The workload loop of `Client::protocol` (client.rs lines 174-182):
one list element per planned request (`n_requests` in total), carrying
the txid the global counter would hand out and the outcome of the
blocking receive for the result.  While `running`, build and send the
`ClientRequest` (`Client::send_next_operation`, client.rs lines
93-118: bump `opid`, fresh txid, sender "Client_<id>") and classify
the received result; stop as soon as `running` is false.  Returns the
final state and the requests issued. -/
def clientLoop (st : ClientState) :
    List (Int × Option ProtocolMessage) → ClientState × List ProtocolMessage
  | [] => (st, [])
  | (tx, rep) :: rest =>
    if st.running then
      let req := ProtocolMessage.generate .ClientRequest tx
        ("Client_" ++ toString st.id) st.opid
      let st1 := { st with opid := st.opid + 1 }
      let st2 := recvResult st1 rep
      let out := clientLoop st2 rest
      (out.1, req :: out.2)
    else (st, [])

/-- The statement `drop(&self.ports.0)` at client.rs line 183.  In Rust,
`std::mem::drop` consumes its argument; applied to the shared reference
`&self.ports.0` it drops only that temporary reference and the `Sender`
itself stays alive (the `dropping_references` lint situation).  The
endpoint is therefore not closed, so this is the identity on the
modelled state: `senderClosed` is unchanged. -/
def dropRef (st : ClientState) : ClientState := st

/-- `Client::protocol` (client.rs lines 169-189): run the workload loop,
then `drop(&self.ports.0)`, then spin-wait on `running` and report
(neither of which changes the modelled state). -/
def clientProtocol (st : ClientState)
    (evs : List (Int × Option ProtocolMessage)) :
    ClientState × List ProtocolMessage :=
  let out := clientLoop st evs
  (dropRef out.1, out.2)

/-! ## Helper lemmas -/

/-- Once `all_voted` is cleared it stays cleared for the rest of the
vote-collection loop. -/
lemma collectVotes_false (votes : List RecvOutcome) :
    collectVotes false votes = false := by
  induction votes with
  | nil => rfl
  | cons v rest ih =>
    cases v with
    | ok m =>
      by_cases h : m.mtype = .ParticipantVoteAbort <;>
        simp [collectVotes, h] at ih ⊢ <;> exact ih
    | timeout => exact ih
    | disconnected => exact ih

/-- A vote-receive outcome that keeps `all_voted` set: an `Ok` message
of any kind other than `ParticipantVoteAbort`. -/
def keepsVote (r : RecvOutcome) : Bool :=
  match r with
  | .ok m => if m.mtype = .ParticipantVoteAbort then false else true
  | .timeout => false
  | .disconnected => false

lemma collectVotes_cons (a : Bool) (v : RecvOutcome) (rest : List RecvOutcome) :
    collectVotes a (v :: rest) =
      collectVotes (if keepsVote v then a else false) rest := by
  cases v with
  | ok m => by_cases h : m.mtype = .ParticipantVoteAbort <;> simp [collectVotes, keepsVote, h]
  | timeout => simp [collectVotes, keepsVote]
  | disconnected => simp [collectVotes, keepsVote]

/-- The vote-collection loop leaves `all_voted` set iff it was set on
entry and every receive outcome was an `Ok` message of a kind other
than `ParticipantVoteAbort`. -/
lemma collectVotes_eq_true_iff (a : Bool) (votes : List RecvOutcome) :
    collectVotes a votes = true ↔ (a = true ∧ ∀ v ∈ votes, keepsVote v = true) := by
  induction votes generalizing a with
  | nil => simp [collectVotes]
  | cons v rest ih =>
    rw [collectVotes_cons, ih]
    by_cases h : keepsVote v = true
    · simp [h]
    · simp only [h, if_neg]
      simp only [Bool.not_eq_true] at h
      simp [h, collectVotes_false]

/-- A vote-receive outcome whose message, if any, is an actual
participant vote (`ParticipantVoteCommit` or `ParticipantVoteAbort`) —
the only message kinds a participant ever places on its channel to the
coordinator (participant.rs lines 168-175 and 194-201). -/
def isVoteOutcome : RecvOutcome → Bool
  | .ok m =>
    if m.mtype = .ParticipantVoteCommit then true
    else if m.mtype = .ParticipantVoteAbort then true
    else false
  | .timeout => true
  | .disconnected => true

/-- The kind of the decision message of a completed round is determined
by the vote-collection fold (coordinator.rs lines 285-294). -/
lemma coordRound_decision_mtype {st : CoordState} {pm : ProtocolMessage}
    {votes : List RecvOutcome} {r : RoundResult}
    (h : coordRound st pm votes = some r) :
    r.decision.mtype =
      if collectVotes st.allVoted votes then MessageType.CoordinatorCommit
      else MessageType.CoordinatorAbort := by
  unfold coordRound at h
  split at h
  · simp only [Option.some.injEq] at h
    subst h
    by_cases hvb : collectVotes st.allVoted votes = true <;>
      simp [hvb, ProtocolMessage.generate]
  · exact absurd h (by simp)

/-- C1: for every transaction round the coordinator completes, the
round's outcome is commit if and only if the (500 ms-bounded) blocking
receive on each registered participant's endpoint returned an `Ok`
message of kind `ParticipantVoteCommit`; a `ParticipantVoteAbort`, a
timeout or a disconnect from any participant makes the outcome abort.
Stated for rounds entered with `all_voted` set (true of every round the
program runs: `Coordinator::new` sets it and every completed round
resets it) and for receive outcomes whose messages are participant
votes (the only kinds participants ever send on that channel). -/
theorem coordinator_commits_iff_unanimous_votes
    (st : CoordState) (pm : ProtocolMessage) (votes : List RecvOutcome)
    (r : RoundResult)
    (hall : st.allVoted = true)
    (hkinds : ∀ v ∈ votes, isVoteOutcome v = true)
    (hround : coordRound st pm votes = some r) :
    voteTimeoutMillis = 500 ∧
    (r.decision.mtype = .CoordinatorCommit ∨ r.decision.mtype = .CoordinatorAbort) ∧
    (r.decision.mtype = .CoordinatorCommit ↔
      ∀ v ∈ votes, ∃ m, v = RecvOutcome.ok m ∧ m.mtype = .ParticipantVoteCommit) := by
  refine ⟨rfl, ?_⟩
  have hdec := coordRound_decision_mtype hround
  by_cases hvb : collectVotes st.allVoted votes = true
  · rw [hdec, if_pos hvb]
    rcases (collectVotes_eq_true_iff _ _).mp hvb with ⟨-, hkeep⟩
    refine ⟨Or.inl rfl, ⟨fun _ => ?_, fun _ => rfl⟩⟩
    intro v hvmem
    have hk := hkeep v hvmem
    have hki := hkinds v hvmem
    cases v with
    | ok m =>
      refine ⟨m, rfl, ?_⟩
      by_cases hc : m.mtype = .ParticipantVoteCommit
      · exact hc
      · by_cases ha : m.mtype = .ParticipantVoteAbort
        · simp [keepsVote, ha] at hk
        · simp [isVoteOutcome, hc, ha] at hki
    | timeout => simp [keepsVote] at hk
    | disconnected => simp [keepsVote] at hk
  · simp only [Bool.not_eq_true] at hvb
    rw [hdec, if_neg (by simp [hvb])]
    refine ⟨Or.inr rfl, ⟨fun habs => absurd habs (by simp), fun hRHS => ?_⟩⟩
    exfalso
    have : collectVotes st.allVoted votes = true := by
      rw [collectVotes_eq_true_iff]
      refine ⟨hall, fun v hvmem => ?_⟩
      rcases hRHS v hvmem with ⟨m, rfl, hmk⟩
      simp [keepsVote, hmk]
    rw [this] at hvb
    exact absurd hvb (by simp)

/-- C1 witness: a concrete round (state `coordInit`, one registered
participant voting commit) completes with decision `CoordinatorCommit`,
via the iff of the theorem. -/
theorem coordinator_commits_iff_unanimous_votes_witness :
    coordRound coordInit ⟨.ClientRequest, 1, "Client_0", 0⟩
      [RecvOutcome.ok ⟨.ParticipantVoteCommit, 1, "participant_0", 0⟩] =
      some { state := { log := [⟨.ClientRequest, 1, "Client_0", 0⟩,
                               ⟨.CoordinatorPropose, 1, "coordinator", 0⟩,
                               ⟨.CoordinatorCommit, 1, "coordinator", 0⟩,
                               ⟨.ClientResultCommit, 1, "coordinator", 0⟩],
                        allVoted := true, successful := 1, failed := 0,
                        unknown := 0, numReqHandled := 1 },
             decision := ⟨.CoordinatorCommit, 1, "coordinator", 0⟩,
             clientResult := ⟨.ClientResultCommit, 1, "coordinator", 0⟩ } ∧
    (⟨.CoordinatorCommit, 1, "coordinator", 0⟩ : ProtocolMessage).mtype =
      .CoordinatorCommit :=
  ⟨by decide,
   (coordinator_commits_iff_unanimous_votes coordInit
      ⟨.ClientRequest, 1, "Client_0", 0⟩
      [RecvOutcome.ok ⟨.ParticipantVoteCommit, 1, "participant_0", 0⟩]
      { state := { log := [⟨.ClientRequest, 1, "Client_0", 0⟩,
                           ⟨.CoordinatorPropose, 1, "coordinator", 0⟩,
                           ⟨.CoordinatorCommit, 1, "coordinator", 0⟩,
                           ⟨.ClientResultCommit, 1, "coordinator", 0⟩],
                   allVoted := true, successful := 1, failed := 0,
                   unknown := 0, numReqHandled := 1 },
        decision := ⟨.CoordinatorCommit, 1, "coordinator", 0⟩,
        clientResult := ⟨.ClientResultCommit, 1, "coordinator", 0⟩ }
      rfl (by decide) (by decide)).2.2.mpr
    (by
      intro v hv
      rcases List.mem_singleton.mp hv with rfl
      exact ⟨_, rfl, rfl⟩)⟩

/-- C2: for every client request the coordinator handles to completion,
the coordinator's log receives, in this order, the `ClientRequest`
record, then the `CoordinatorPropose` record, then exactly one of
`CoordinatorCommit` or `CoordinatorAbort`, then exactly one of
`ClientResultCommit` or `ClientResultAbort`, all with the request's
txid, and the client-result kind matches the decision kind. -/
theorem coordinator_log_order_per_round
    (st : CoordState) (pm : ProtocolMessage) (votes : List RecvOutcome)
    (r : RoundResult)
    (hround : coordRound st pm votes = some r) :
    ∃ d c : MessageType,
      r.state.log = st.log ++
        [⟨.ClientRequest, pm.txid, pm.senderid, pm.opid⟩,
         ⟨.CoordinatorPropose, pm.txid, "coordinator", pm.opid⟩,
         ⟨d, pm.txid, "coordinator", pm.opid⟩,
         ⟨c, pm.txid, "coordinator", pm.opid⟩] ∧
      ((d = .CoordinatorCommit ∧ c = .ClientResultCommit) ∨
       (d = .CoordinatorAbort ∧ c = .ClientResultAbort)) ∧
      r.decision.mtype = d ∧ r.clientResult.mtype = c := by
  unfold coordRound at hround
  split at hround
  case isFalse => exact absurd hround (by simp)
  case isTrue hreq =>
    simp only [Option.some.injEq] at hround
    subst hround
    by_cases hvb : collectVotes st.allVoted votes = true
    · refine ⟨.CoordinatorCommit, .ClientResultCommit, ?_, Or.inl ⟨rfl, rfl⟩, ?_, ?_⟩ <;>
        simp [hvb, hreq, ProtocolMessage.generate, OpLog.append]
    · simp only [Bool.not_eq_true] at hvb
      refine ⟨.CoordinatorAbort, .ClientResultAbort, ?_, Or.inr ⟨rfl, rfl⟩, ?_, ?_⟩ <;>
        simp [hvb, hreq, ProtocolMessage.generate, OpLog.append]

/-- C2 witness: a concrete round (one participant vote abort) appends
the four records in order with matching abort kinds. -/
theorem coordinator_log_order_per_round_witness :
    coordRound coordInit ⟨.ClientRequest, 3, "Client_0", 0⟩
      [RecvOutcome.ok ⟨.ParticipantVoteAbort, 3, "participant_0", 0⟩] =
      some { state := { log := [⟨.ClientRequest, 3, "Client_0", 0⟩,
                               ⟨.CoordinatorPropose, 3, "coordinator", 0⟩,
                               ⟨.CoordinatorAbort, 3, "coordinator", 0⟩,
                               ⟨.ClientResultAbort, 3, "coordinator", 0⟩],
                        allVoted := true, successful := 0, failed := 1,
                        unknown := 0, numReqHandled := 1 },
             decision := ⟨.CoordinatorAbort, 3, "coordinator", 0⟩,
             clientResult := ⟨.ClientResultAbort, 3, "coordinator", 0⟩ } ∧
    (∃ d c : MessageType,
      ({ state := { log := [⟨.ClientRequest, 3, "Client_0", 0⟩,
                           ⟨.CoordinatorPropose, 3, "coordinator", 0⟩,
                           ⟨.CoordinatorAbort, 3, "coordinator", 0⟩,
                           ⟨.ClientResultAbort, 3, "coordinator", 0⟩],
                    allVoted := true, successful := 0, failed := 1,
                    unknown := 0, numReqHandled := 1 },
         decision := ⟨.CoordinatorAbort, 3, "coordinator", 0⟩,
         clientResult := ⟨.ClientResultAbort, 3, "coordinator", 0⟩ } :
         RoundResult).state.log = coordInit.log ++
        [⟨.ClientRequest, 3, "Client_0", 0⟩,
         ⟨.CoordinatorPropose, 3, "coordinator", 0⟩,
         ⟨d, 3, "coordinator", 0⟩,
         ⟨c, 3, "coordinator", 0⟩] ∧
      ((d = .CoordinatorCommit ∧ c = .ClientResultCommit) ∨
       (d = .CoordinatorAbort ∧ c = .ClientResultAbort)) ∧
      ({ state := { log := [⟨.ClientRequest, 3, "Client_0", 0⟩,
                           ⟨.CoordinatorPropose, 3, "coordinator", 0⟩,
                           ⟨.CoordinatorAbort, 3, "coordinator", 0⟩,
                           ⟨.ClientResultAbort, 3, "coordinator", 0⟩],
                    allVoted := true, successful := 0, failed := 1,
                    unknown := 0, numReqHandled := 1 },
         decision := ⟨.CoordinatorAbort, 3, "coordinator", 0⟩,
         clientResult := ⟨.ClientResultAbort, 3, "coordinator", 0⟩ } :
         RoundResult).decision.mtype = d ∧
      ({ state := { log := [⟨.ClientRequest, 3, "Client_0", 0⟩,
                           ⟨.CoordinatorPropose, 3, "coordinator", 0⟩,
                           ⟨.CoordinatorAbort, 3, "coordinator", 0⟩,
                           ⟨.ClientResultAbort, 3, "coordinator", 0⟩],
                    allVoted := true, successful := 0, failed := 1,
                    unknown := 0, numReqHandled := 1 },
         decision := ⟨.CoordinatorAbort, 3, "coordinator", 0⟩,
         clientResult := ⟨.ClientResultAbort, 3, "coordinator", 0⟩ } :
         RoundResult).clientResult.mtype = c) :=
  ⟨by decide,
   coordinator_log_order_per_round coordInit ⟨.ClientRequest, 3, "Client_0", 0⟩
     [RecvOutcome.ok ⟨.ParticipantVoteAbort, 3, "participant_0", 0⟩]
     _ (by decide)⟩

/-- The unknown counter is untouched by a completed round. -/
lemma coordRound_unknown {st : CoordState} {pm : ProtocolMessage}
    {votes : List RecvOutcome} {r : RoundResult}
    (h : coordRound st pm votes = some r) :
    r.state.unknown = st.unknown := by
  unfold coordRound at h
  split at h
  · simp only [Option.some.injEq] at h
    subst h
    rfl
  · exact absurd h (by simp)

/-- The unknown counter is invariant across the whole request loop. -/
lemma runRounds_unknown :
    ∀ (reqs : List (ProtocolMessage × List RecvOutcome)) (st st' : CoordState),
      runRounds st reqs = some st' → st'.unknown = st.unknown := by
  intro reqs
  induction reqs with
  | nil =>
    intro st st' h
    simp only [runRounds, Option.some.injEq] at h
    subst h
    rfl
  | cons req rest ih =>
    intro st st' h
    simp only [runRounds] at h
    split at h
    case h_1 r hr => rw [ih _ _ h, coordRound_unknown hr]
    case h_2 => exact absurd h (by simp)

/-- C10: the coordinator's unknown counter is 0 at construction and no
coordinator operation increments it, so the aggregate status reported on
exit shows unknown = 0 for every sequence of requests, votes, drops and
timeouts the protocol loop processes. -/
theorem coordinator_unknown_always_zero
    (reqs : List (ProtocolMessage × List RecvOutcome)) (st' : CoordState)
    (h : runRounds coordInit reqs = some st') :
    st'.unknown = 0 ∧ (reportStatus st').2.2 = 0 := by
  have hz : st'.unknown = 0 := by
    rw [runRounds_unknown reqs coordInit st' h]
    rfl
  exact ⟨hz, hz⟩

/-- C10 witness: a concrete two-request run (one commit, one abort with
a timed-out vote) reports unknown = 0. -/
theorem coordinator_unknown_always_zero_witness :
    runRounds coordInit
      [(⟨.ClientRequest, 1, "Client_0", 0⟩,
        [RecvOutcome.ok ⟨.ParticipantVoteCommit, 1, "participant_0", 0⟩]),
       (⟨.ClientRequest, 2, "Client_0", 1⟩, [RecvOutcome.timeout])] =
      some { log := [⟨.ClientRequest, 1, "Client_0", 0⟩,
                     ⟨.CoordinatorPropose, 1, "coordinator", 0⟩,
                     ⟨.CoordinatorCommit, 1, "coordinator", 0⟩,
                     ⟨.ClientResultCommit, 1, "coordinator", 0⟩,
                     ⟨.ClientRequest, 2, "Client_0", 1⟩,
                     ⟨.CoordinatorPropose, 2, "coordinator", 1⟩,
                     ⟨.CoordinatorAbort, 2, "coordinator", 1⟩,
                     ⟨.ClientResultAbort, 2, "coordinator", 1⟩],
             allVoted := true, successful := 1, failed := 1, unknown := 0,
             numReqHandled := 2 } ∧
    ({ log := [⟨.ClientRequest, 1, "Client_0", 0⟩,
               ⟨.CoordinatorPropose, 1, "coordinator", 0⟩,
               ⟨.CoordinatorCommit, 1, "coordinator", 0⟩,
               ⟨.ClientResultCommit, 1, "coordinator", 0⟩,
               ⟨.ClientRequest, 2, "Client_0", 1⟩,
               ⟨.CoordinatorPropose, 2, "coordinator", 1⟩,
               ⟨.CoordinatorAbort, 2, "coordinator", 1⟩,
               ⟨.ClientResultAbort, 2, "coordinator", 1⟩],
       allVoted := true, successful := 1, failed := 1, unknown := 0,
       numReqHandled := 2 } : CoordState).unknown = 0 ∧
    (reportStatus { log := [⟨.ClientRequest, 1, "Client_0", 0⟩,
                            ⟨.CoordinatorPropose, 1, "coordinator", 0⟩,
                            ⟨.CoordinatorCommit, 1, "coordinator", 0⟩,
                            ⟨.ClientResultCommit, 1, "coordinator", 0⟩,
                            ⟨.ClientRequest, 2, "Client_0", 1⟩,
                            ⟨.CoordinatorPropose, 2, "coordinator", 1⟩,
                            ⟨.CoordinatorAbort, 2, "coordinator", 1⟩,
                            ⟨.ClientResultAbort, 2, "coordinator", 1⟩],
                    allVoted := true, successful := 1, failed := 1,
                    unknown := 0, numReqHandled := 2 }).2.2 = 0 :=
  ⟨by decide,
   (coordinator_unknown_always_zero
     [(⟨.ClientRequest, 1, "Client_0", 0⟩,
       [RecvOutcome.ok ⟨.ParticipantVoteCommit, 1, "participant_0", 0⟩]),
      (⟨.ClientRequest, 2, "Client_0", 1⟩, [RecvOutcome.timeout])]
     _ (by decide)).1,
   (coordinator_unknown_always_zero
     [(⟨.ClientRequest, 1, "Client_0", 0⟩,
       [RecvOutcome.ok ⟨.ParticipantVoteCommit, 1, "participant_0", 0⟩]),
      (⟨.ClientRequest, 2, "Client_0", 1⟩, [RecvOutcome.timeout])]
     _ (by decide)).2⟩

/-- One polling round scans the client table like `findSome?`. -/
lemma scanRound_eq_findSome (o : String → RecvOutcome) :
    ∀ names : List String,
      scanRound names o = names.findSome? fun n =>
        match o n with
        | .ok m => some (m, n)
        | .timeout => none
        | .disconnected => none := by
  intro names
  induction names with
  | nil => rfl
  | cons n rest ih =>
    cases h : o n <;> simp [scanRound, List.findSome?_cons, h, ih]

/-- The outer polling loop is `findSome?` over the rounds it has fuel
for. -/
lemma recvRequestFrom_eq_findSome (names : List String)
    (out : Nat → String → RecvOutcome) :
    ∀ (fuel i : Nat),
      recvRequestFrom names out i fuel =
        (List.range' i fuel).findSome? fun j => scanRound names (out j) := by
  intro fuel
  induction fuel with
  | zero => intro i; rfl
  | succ fuel ih =>
    intro i
    rw [List.range'_succ, List.findSome?_cons]
    cases h : scanRound names (out i) <;>
      simp [recvRequestFrom, h, ih (i + 1)]

lemma findSome_flatMap {α β γ : Type} (f : α → List β) (g : β → Option γ) :
    ∀ l : List α,
      (l.flatMap f).findSome? g = l.findSome? fun a => (f a).findSome? g := by
  intro l
  induction l with
  | nil => rfl
  | cons a rest ih =>
    rw [List.flatMap_cons, List.findSome?_append, List.findSome?_cons, ih]
    cases h : (f a).findSome? g <;> simp [h, Option.or]

/-- C6 (amended): on every call, `recv_request` polls the clients'
inbound endpoints in the client table's iteration order (the code
iterates a `HashMap`, so registration order is not guaranteed), each
poll with a 10 ms timeout, over at most 10 rounds, and returns the
first message it sees — of whatever kind, not only `ClientRequest` —
together with that client's key, or the none-found indication
`(None, "", false)` when no poll returns a message. -/
theorem recv_request_first_message_in_poll_order
    (names : List String) (out : Nat → String → RecvOutcome) :
    recvRequestRounds = 10 ∧ recvRequestPollMillis = 10 ∧
    recvRequest names out =
      (match pollFirst names out with
       | some p => (some p.1, p.2, true)
       | none => (none, "", false)) := by
  refine ⟨rfl, rfl, ?_⟩
  have hpoll : pollFirst names out =
      recvRequestFrom names out 0 recvRequestRounds := by
    rw [recvRequestFrom_eq_findSome, ← List.range_eq_range' recvRequestRounds]
    unfold pollFirst pollOrder
    rw [findSome_flatMap]
    have hfun : (fun i : Nat =>
        (names.map fun n => (i, n)).findSome? fun p =>
          match out p.1 p.2 with
          | .ok m => some (m, p.2)
          | .timeout => none
          | .disconnected => none) =
        fun j => scanRound names (out j) := by
      funext i
      rw [scanRound_eq_findSome, List.findSome?_map]
      rfl
    rw [hfun]
  rw [hpoll]
  unfold recvRequest
  cases recvRequestFrom names out 0 recvRequestRounds <;> rfl

/-- C6 counterexample: the claim says `recv_request` returns the first
`ClientRequest` it sees or a none-found indication, and that it polls in
registration order.  With the table iterated in the order ["1", "0"]
(clients were registered "0" then "1") and a pending message of kind
`ParticipantVoteCommit` at client "1", `recv_request` returns that
non-`ClientRequest` message, from the client polled first in iteration
order. -/
theorem recv_request_returns_any_kind_counterexample :
    recvRequest ["1", "0"]
      (fun _ n =>
        if n = "1" then
          RecvOutcome.ok ⟨.ParticipantVoteCommit, 7, "participant_0", 0⟩
        else RecvOutcome.timeout) =
      (some ⟨.ParticipantVoteCommit, 7, "participant_0", 0⟩, "1", true) ∧
    (⟨.ParticipantVoteCommit, 7, "participant_0", 0⟩ :
      ProtocolMessage).mtype ≠ .ClientRequest :=
  ⟨rfl, by decide⟩

/-- C3 counterexample: the claim says a dispatched `CoordinatorExit`
stores `false` into `running` regardless of the draw `x`.  With
`p_op = 0` and `x = 1` the draw satisfies `x > p_op`, the dispatch takes
the "failed prepare" branch, whose match has no `CoordinatorExit` arm,
and `running` stays `true`. -/
theorem exit_ignored_on_failed_draw_counterexample :
    (performOperation (partInit 0 0 1 true)
      ⟨.CoordinatorExit, -1, "coordinator", -1⟩ 1 0
      ⟨.CoordinatorAbort, 1, "coordinator", 0⟩).state.running = true := by
  decide

/-- C3 (amended): a `CoordinatorExit` dispatched through
`perform_operation` stores `false` into the shared running flag exactly
when the participant's random operation draw satisfies `x ≤ p_op` (the
branch of participant.rs line 219); when `x > p_op` the message falls
into the wildcard arm of the other branch and the whole state is left
unchanged. -/
theorem exit_clears_running_only_on_successful_draw
    (st : PartState) (pm : ProtocolMessage) (x msgX : ℚ)
    (reply : ProtocolMessage) (hm : pm.mtype = .CoordinatorExit) :
    (x ≤ st.opSuccessProb →
      performOperation st pm x msgX reply =
        { state := { st with running := false }, sent := [], result := false }) ∧
    (x > st.opSuccessProb →
      performOperation st pm x msgX reply =
        { state := st, sent := [], result := false }) := by
  constructor
  · intro hx
    unfold performOperation
    rw [if_neg (not_lt.mpr hx), hm]
  · intro hx
    unfold performOperation
    rw [if_pos hx, hm]

/-- C3 witness: with `p_op = 1` and draw `x = 0 ≤ p_op`, a dispatched
`CoordinatorExit` clears `running`. -/
theorem exit_clears_running_only_on_successful_draw_witness :
    performOperation (partInit 0 1 1 true)
      ⟨.CoordinatorExit, -1, "coordinator", -1⟩ 0 0
      ⟨.CoordinatorAbort, 1, "coordinator", 0⟩ =
      { state := { partInit 0 1 1 true with running := false }, sent := [],
        result := false } :=
  (exit_clears_running_only_on_successful_draw (partInit 0 1 1 true)
    ⟨.CoordinatorExit, -1, "coordinator", -1⟩ 0 0
    ⟨.CoordinatorAbort, 1, "coordinator", 0⟩ rfl).1 (by decide)

/-- C7 counterexample: the claim says that with `p_op = 0` and
`p_msg = 1` every value of the uniform [0,1) draw makes the participant
vote `ParticipantVoteAbort`.  The draw `x = 0` is a possible value of a
uniform [0,1) sample, fails the strict test `x > 0` of participant.rs
line 164, and the participant votes `ParticipantVoteCommit` instead. -/
theorem always_abort_fails_at_zero_draw_counterexample :
    (performOperation (partInit 0 0 1 true)
      ⟨.CoordinatorPropose, 1, "coordinator", 0⟩ 0 0
      ⟨.CoordinatorAbort, 1, "coordinator", 0⟩).sent =
      [⟨.ParticipantVoteCommit, 1, "participant_0", 0⟩] ∧
    (⟨.ParticipantVoteCommit, 1, "participant_0", 0⟩ :
      ProtocolMessage).mtype ≠ .ParticipantVoteAbort := by
  constructor
  · decide
  · decide

/-- C7 (amended): when `p_op = 0` and `p_msg = 1`, for every
`CoordinatorPropose` a participant processes with a draw `x > 0` — that
is, every draw except the probability-zero value `x = 0`, which makes it
vote commit — the participant logs and sends `ParticipantVoteAbort`. -/
theorem always_abort_when_op_prob_zero
    (st : PartState) (pm : ProtocolMessage) (x msgX : ℚ)
    (reply : ProtocolMessage)
    (hop : st.opSuccessProb = 0) (hmsg : st.msgSuccessProb = 1)
    (hm : pm.mtype = .CoordinatorPropose) (hx : 0 < x) :
    (performOperation st pm x msgX reply).sent =
      [⟨.ParticipantVoteAbort, pm.txid, "participant_" ++ toString st.id,
        pm.opid⟩] ∧
    (⟨.ParticipantVoteAbort, pm.txid, "participant_" ++ toString st.id,
        pm.opid⟩ : LogRecord) ∈ (performOperation st pm x msgX reply).state.log := by
  have hgt : x > st.opSuccessProb := by rw [hop]; exact hx
  unfold performOperation
  rw [if_pos hgt, hm]
  simp only [ProtocolMessage.generate, hmsg, if_pos]
  cases hr : reply.mtype <;>
    simp [hr, OpLog.append, ProtocolMessage.generate]

/-- C7 witness: with `p_op = 0`, `p_msg = 1` and draw `x = 1`, the
participant sends and logs a vote abort for the proposed transaction. -/
theorem always_abort_when_op_prob_zero_witness :
    (performOperation (partInit 0 0 1 true)
      ⟨.CoordinatorPropose, 5, "coordinator", 2⟩ 1 0
      ⟨.CoordinatorAbort, 5, "coordinator", 2⟩).sent =
      [⟨.ParticipantVoteAbort, 5, "participant_" ++ toString (0 : Int), 2⟩] ∧
    (⟨.ParticipantVoteAbort, 5, "participant_" ++ toString (0 : Int), 2⟩ :
      LogRecord) ∈
      (performOperation (partInit 0 0 1 true)
        ⟨.CoordinatorPropose, 5, "coordinator", 2⟩ 1 0
        ⟨.CoordinatorAbort, 5, "coordinator", 2⟩).state.log :=
  always_abort_when_op_prob_zero (partInit 0 0 1 true)
    ⟨.CoordinatorPropose, 5, "coordinator", 2⟩ 1 0
    ⟨.CoordinatorAbort, 5, "coordinator", 2⟩ rfl rfl rfl (by decide)

/-- C4 counterexample: the claim says that for every decision message
received after sending a vote — whether the vote was commit or abort —
a `CoordinatorCommit` is logged and increments the committed counter.
After a `ParticipantVoteAbort` (draw `x = 1 > p_op = 0`), a
`CoordinatorCommit` reply falls into the wildcard arm: the participant
increments `unknown`, leaves `successful` at 0 and does not append the
decision to its log. -/
theorem decision_after_abort_vote_counterexample :
    (performOperation (partInit 0 0 1 true)
      ⟨.CoordinatorPropose, 4, "coordinator", 0⟩ 1 0
      ⟨.CoordinatorCommit, 4, "coordinator", 0⟩).state.unknown = 1 ∧
    (performOperation (partInit 0 0 1 true)
      ⟨.CoordinatorPropose, 4, "coordinator", 0⟩ 1 0
      ⟨.CoordinatorCommit, 4, "coordinator", 0⟩).state.successful = 0 ∧
    (performOperation (partInit 0 0 1 true)
      ⟨.CoordinatorPropose, 4, "coordinator", 0⟩ 1 0
      ⟨.CoordinatorCommit, 4, "coordinator", 0⟩).state.log =
      [⟨.CoordinatorPropose, 4, "coordinator", 0⟩,
       ⟨.ParticipantVoteAbort, 4, "participant_0", 0⟩] := by
  refine ⟨?_, ?_, ?_⟩ <;> decide

/-- C4 (amended): for the message a participant blocking-receives after
sending its vote on a `CoordinatorPropose`: after a
`ParticipantVoteCommit` (draw `x ≤ p_op`), a `CoordinatorCommit` reply
is logged and increments the committed counter, a `CoordinatorAbort`
reply is logged and increments the aborted counter, and any other kind
increments the unknown counter without being logged; after a
`ParticipantVoteAbort` (draw `x > p_op`), only a `CoordinatorAbort`
reply is logged and increments the aborted counter, while any other
kind — `CoordinatorCommit` included — increments the unknown counter
without being logged. -/
theorem decision_reply_handling
    (st : PartState) (pm : ProtocolMessage) (x msgX : ℚ)
    (r : ProtocolMessage) (hm : pm.mtype = .CoordinatorPropose) :
    (x ≤ st.opSuccessProb →
      ((r.mtype = .CoordinatorCommit →
        (performOperation st pm x msgX r).state =
          { st with
            log := st.log ++
              [⟨.CoordinatorPropose, pm.txid, pm.senderid, pm.opid⟩,
               ⟨.ParticipantVoteCommit, pm.txid,
                 "participant_" ++ toString st.id, pm.opid⟩,
               ⟨r.mtype, r.txid, r.senderid, r.opid⟩],
            successful := st.successful + 1 }) ∧
       (r.mtype = .CoordinatorAbort →
        (performOperation st pm x msgX r).state =
          { st with
            log := st.log ++
              [⟨.CoordinatorPropose, pm.txid, pm.senderid, pm.opid⟩,
               ⟨.ParticipantVoteCommit, pm.txid,
                 "participant_" ++ toString st.id, pm.opid⟩,
               ⟨r.mtype, r.txid, r.senderid, r.opid⟩],
            failed := st.failed + 1 }) ∧
       (r.mtype ≠ .CoordinatorCommit → r.mtype ≠ .CoordinatorAbort →
        (performOperation st pm x msgX r).state =
          { st with
            log := st.log ++
              [⟨.CoordinatorPropose, pm.txid, pm.senderid, pm.opid⟩,
               ⟨.ParticipantVoteCommit, pm.txid,
                 "participant_" ++ toString st.id, pm.opid⟩],
            unknown := st.unknown + 1 }))) ∧
    (x > st.opSuccessProb →
      ((r.mtype = .CoordinatorAbort →
        (performOperation st pm x msgX r).state =
          { st with
            log := st.log ++
              [⟨.CoordinatorPropose, pm.txid, pm.senderid, pm.opid⟩,
               ⟨.ParticipantVoteAbort, pm.txid,
                 "participant_" ++ toString st.id, pm.opid⟩,
               ⟨r.mtype, r.txid, r.senderid, r.opid⟩],
            failed := st.failed + 1 }) ∧
       (r.mtype ≠ .CoordinatorAbort →
        (performOperation st pm x msgX r).state =
          { st with
            log := st.log ++
              [⟨.CoordinatorPropose, pm.txid, pm.senderid, pm.opid⟩,
               ⟨.ParticipantVoteAbort, pm.txid,
                 "participant_" ++ toString st.id, pm.opid⟩],
            unknown := st.unknown + 1 }))) := by
  constructor
  · intro hx
    have hnx : ¬ x > st.opSuccessProb := not_lt.mpr hx
    refine ⟨?_, ?_, ?_⟩
    · intro hr
      unfold performOperation
      rw [if_neg hnx, hm]
      simp only [hm, hr, ProtocolMessage.generate, OpLog.append]
      simp [List.append_assoc]
    · intro hr
      unfold performOperation
      rw [if_neg hnx, hm]
      simp only [hm, hr, ProtocolMessage.generate, OpLog.append]
      simp [List.append_assoc]
    · intro hrc hra
      unfold performOperation
      rw [if_neg hnx, hm]
      cases hr : r.mtype <;> simp_all [ProtocolMessage.generate, OpLog.append]
  · intro hx
    refine ⟨?_, ?_⟩
    · intro hr
      unfold performOperation
      rw [if_pos hx, hm]
      simp only [hm, hr, ProtocolMessage.generate, OpLog.append]
      simp [List.append_assoc]
    · intro hra
      unfold performOperation
      rw [if_pos hx, hm]
      cases hr : r.mtype <;> simp_all [ProtocolMessage.generate, OpLog.append]

/-- C4 witness: after a commit vote (`x = 0 ≤ p_op = 1`), a concrete
`CoordinatorAbort` decision is logged and bumps the aborted counter. -/
theorem decision_reply_handling_witness :
    (performOperation (partInit 0 1 1 true)
      ⟨.CoordinatorPropose, 6, "coordinator", 1⟩ 0 0
      ⟨.CoordinatorAbort, 6, "coordinator", 1⟩).state =
      { partInit 0 1 1 true with
        log := (partInit 0 1 1 true).log ++
          [⟨.CoordinatorPropose, 6, "coordinator", 1⟩,
           ⟨.ParticipantVoteCommit, 6,
             "participant_" ++ toString ((partInit 0 1 1 true).id), 1⟩,
           ⟨(⟨.CoordinatorAbort, 6, "coordinator", 1⟩ : ProtocolMessage).mtype,
             6, "coordinator", 1⟩],
        failed := (partInit 0 1 1 true).failed + 1 } :=
  ((decision_reply_handling (partInit 0 1 1 true)
      ⟨.CoordinatorPropose, 6, "coordinator", 1⟩ 0 0
      ⟨.CoordinatorAbort, 6, "coordinator", 1⟩ rfl).1 (by decide)).2.1 rfl

/-- Every record `perform_operation` appends is either the logged
propose, the participant's own vote, or a copy of the received decision
reply: any record of the output log is in the input log or is of one of
those kinds. -/
lemma performOperation_log_mem
    (st : PartState) (pm : ProtocolMessage) (x msgX : ℚ)
    (r : ProtocolMessage) (rec : LogRecord)
    (h : rec ∈ (performOperation st pm x msgX r).state.log) :
    rec ∈ st.log ∨ rec.mtype = .CoordinatorPropose ∨
    rec.mtype = .ParticipantVoteCommit ∨ rec.mtype = .ParticipantVoteAbort ∨
    (rec.mtype = r.mtype ∧ rec.txid = r.txid) := by
  unfold performOperation at h
  by_cases hx : x > st.opSuccessProb <;> [rw [if_pos hx] at h; rw [if_neg hx] at h] <;>
    cases hpm : pm.mtype <;> rw [hpm] at h <;>
    first
    | (exact Or.inl h)
    | (cases hr : r.mtype <;> rw [hr] at h <;>
        simp only [OpLog.append, ProtocolMessage.generate, List.append_assoc,
          List.mem_append, List.mem_cons, List.not_mem_nil, or_false] at h <;>
        rcases h with h | h | h | h <;>
        simp_all)

/-- Every decision-kind record in the log after running the participant
loop was in the initial log or copies the kind and txid of the reply of
one of the dispatched events. -/
lemma participantProtocol_decision_trace :
    ∀ (evs : List PEvent) (st : PartState) (rec : LogRecord),
      rec ∈ (participantProtocol st evs).log →
      rec.mtype.isDecision = true →
      rec ∈ st.log ∨
        ∃ e ∈ evs, rec.mtype = e.reply.mtype ∧ rec.txid = e.reply.txid := by
  intro evs
  induction evs with
  | nil =>
    intro st rec h _
    exact Or.inl h
  | cons e rest ih =>
    intro st rec h hdec
    by_cases hrun : st.running = true
    · rw [participantProtocol, if_pos hrun] at h
      rcases ih _ rec h hdec with h' | ⟨e', he', hk⟩
      · rcases performOperation_log_mem st e.pm e.x e.msgX e.reply rec h' with
          h'' | h'' | h'' | h'' | h''
        · exact Or.inl h''
        · rw [h''] at hdec; exact absurd hdec (by simp [MessageType.isDecision])
        · rw [h''] at hdec; exact absurd hdec (by simp [MessageType.isDecision])
        · rw [h''] at hdec; exact absurd hdec (by simp [MessageType.isDecision])
        · exact Or.inr ⟨e, List.mem_cons_self e rest, h''⟩
      · exact Or.inr ⟨e', List.mem_cons_of_mem e he', hk⟩
    · rw [participantProtocol, if_neg hrun] at h
      exact Or.inl h

/-- C5: for every participant and every txid, the participant's log
never comes to contain both a `CoordinatorCommit` and a
`CoordinatorAbort` record for that txid.  Stated for event streams in
which the decision replies delivered to the participant carry at most
one decision kind per txid — true of the system, since the coordinator
generates exactly one decision message per transaction round and each
round has a fresh txid. -/
theorem participant_log_single_decision_per_txid
    (i : Int) (pOp pMsg : ℚ) (run0 : Bool) (evs : List PEvent) (t : Int)
    (huniq : ∀ e1 ∈ evs, ∀ e2 ∈ evs,
      e1.reply.mtype.isDecision = true → e2.reply.mtype.isDecision = true →
      e1.reply.txid = e2.reply.txid → e1.reply.mtype = e2.reply.mtype) :
    ¬(logHas (participantProtocol (partInit i pOp pMsg run0) evs).log
        .CoordinatorCommit t = true ∧
      logHas (participantProtocol (partInit i pOp pMsg run0) evs).log
        .CoordinatorAbort t = true) := by
  rintro ⟨hc, ha⟩
  simp only [logHas, List.any_eq_true, decide_eq_true_eq] at hc ha
  rcases hc with ⟨rc, hrc, hck, hct⟩
  rcases ha with ⟨ra, hra, hak, hat⟩
  have htc := participantProtocol_decision_trace evs (partInit i pOp pMsg run0)
    rc hrc (by simp [hck, MessageType.isDecision])
  have hta := participantProtocol_decision_trace evs (partInit i pOp pMsg run0)
    ra hra (by simp [hak, MessageType.isDecision])
  rcases htc with hmem | ⟨e1, he1, hk1, ht1⟩
  · exact absurd hmem (by simp [partInit])
  rcases hta with hmem | ⟨e2, he2, hk2, ht2⟩
  · exact absurd hmem (by simp [partInit])
  have h1d : e1.reply.mtype.isDecision = true := by
    rw [← hk1, hck]; rfl
  have h2d : e2.reply.mtype.isDecision = true := by
    rw [← hk2, hak]; rfl
  have htt : e1.reply.txid = e2.reply.txid := by
    rw [← ht1, ← ht2, hct, hat]
  have := huniq e1 he1 e2 he2 h1d h2d htt
  rw [← hk1, ← hk2, hck, hak] at this
  exact absurd this (by simp)

/-- C5 witness: a concrete two-event stream (a proposed transaction
aborted, then a second one committed) satisfies the
one-decision-per-txid delivery hypothesis, so the final log holds no
conflicting decision pair for txid 1. -/
theorem participant_log_single_decision_per_txid_witness :
    ¬(logHas (participantProtocol (partInit 0 1 1 true)
        [⟨⟨.CoordinatorPropose, 1, "coordinator", 0⟩, 0, 0,
          ⟨.CoordinatorAbort, 1, "coordinator", 0⟩⟩,
         ⟨⟨.CoordinatorPropose, 2, "coordinator", 1⟩, 0, 0,
          ⟨.CoordinatorCommit, 2, "coordinator", 1⟩⟩]).log
        .CoordinatorCommit 1 = true ∧
      logHas (participantProtocol (partInit 0 1 1 true)
        [⟨⟨.CoordinatorPropose, 1, "coordinator", 0⟩, 0, 0,
          ⟨.CoordinatorAbort, 1, "coordinator", 0⟩⟩,
         ⟨⟨.CoordinatorPropose, 2, "coordinator", 1⟩, 0, 0,
          ⟨.CoordinatorCommit, 2, "coordinator", 1⟩⟩]).log
        .CoordinatorAbort 1 = true) :=
  participant_log_single_decision_per_txid 0 1 1 true
    [⟨⟨.CoordinatorPropose, 1, "coordinator", 0⟩, 0, 0,
      ⟨.CoordinatorAbort, 1, "coordinator", 0⟩⟩,
     ⟨⟨.CoordinatorPropose, 2, "coordinator", 1⟩, 0, 0,
      ⟨.CoordinatorCommit, 2, "coordinator", 1⟩⟩] 1
    (by decide)

/-- With `running` cleared, the workload loop issues nothing. -/
lemma clientLoop_not_running (st : ClientState) (hrun : st.running = false) :
    ∀ evs, clientLoop st evs = (st, []) := by
  intro evs
  cases evs with
  | nil => rfl
  | cons e rest =>
    cases e with
    | mk tx rep => rw [clientLoop, if_neg (by rw [hrun]; exact Bool.false_ne_true)]

/-- A received result that is not a `CoordinatorExit` leaves `running`
unchanged. -/
lemma recvResult_running_of_not_exit (st : ClientState)
    (rep : Option ProtocolMessage)
    (hne : ∀ m, rep = some m → m.mtype ≠ .CoordinatorExit) :
    (recvResult st rep).running = st.running := by
  cases rep with
  | none => rfl
  | some m =>
    have := hne m rfl
    cases hm : m.mtype <;> simp_all [recvResult]

/-- A received `CoordinatorExit` clears `running`. -/
lemma recvResult_exit_running (st : ClientState) (m : ProtocolMessage)
    (hm : m.mtype = .CoordinatorExit) :
    (recvResult st (some m)).running = false := by
  simp [recvResult, hm]

/-- The workload loop stops right after the step whose reply is a
`CoordinatorExit`: with no earlier exit reply, exactly one request per
earlier step plus the request of the exit step itself are issued. -/
lemma clientLoop_stops_after_exit :
    ∀ (pre : List (Int × Option ProtocolMessage)) (st : ClientState)
      (tx : Int) (em : ProtocolMessage)
      (rest : List (Int × Option ProtocolMessage)),
      st.running = true →
      (∀ p ∈ pre, ∀ m, p.2 = some m → m.mtype ≠ .CoordinatorExit) →
      em.mtype = .CoordinatorExit →
      (clientLoop st (pre ++ (tx, some em) :: rest)).2.length = pre.length + 1 := by
  intro pre
  induction pre with
  | nil =>
    intro st tx em rest hrun _ hem
    rw [List.nil_append, clientLoop, if_pos hrun]
    have hstop : (recvResult { st with opid := st.opid + 1 } (some em)).running
        = false := recvResult_exit_running _ em hem
    simp [clientLoop_not_running _ hstop rest]
  | cons p pre ih =>
    intro st tx em rest hrun hne hem
    cases p with
    | mk ptx prep =>
      rw [List.cons_append, clientLoop, if_pos hrun]
      have hrun2 : (recvResult { st with opid := st.opid + 1 } prep).running
          = true := by
        rw [recvResult_running_of_not_exit _ prep
          (fun m hm => hne (ptx, prep) (List.mem_cons_self _ _) m hm)]
        exact hrun
      have := ih (recvResult { st with opid := st.opid + 1 } prep) tx em rest
        hrun2 (fun q hq m hm => hne q (List.mem_cons_of_mem _ hq) m hm) hem
      simp only [List.length_cons]
      rw [this]

/-- C8: every result message the client receives while running its
workload is classified as: `ClientResultCommit` increments `successful`,
`ClientResultAbort` increments `failed`, `CoordinatorExit` stores
`false` into the shared running flag — after which the client issues no
further requests — and any other kind increments `unknown`; each
received message affects exactly one counter or the flag (the
record-update equalities fix every other field). -/
theorem client_result_classification :
    (∀ (st : ClientState) (m : ProtocolMessage),
      (m.mtype = .ClientResultCommit →
        recvResult st (some m) = { st with successful := st.successful + 1 }) ∧
      (m.mtype = .ClientResultAbort →
        recvResult st (some m) = { st with failed := st.failed + 1 }) ∧
      (m.mtype = .CoordinatorExit →
        recvResult st (some m) = { st with running := false }) ∧
      (m.mtype ≠ .ClientResultCommit → m.mtype ≠ .ClientResultAbort →
        m.mtype ≠ .CoordinatorExit →
        recvResult st (some m) = { st with unknown := st.unknown + 1 })) ∧
    (∀ (st : ClientState) (pre : List (Int × Option ProtocolMessage))
      (tx : Int) (em : ProtocolMessage)
      (rest : List (Int × Option ProtocolMessage)),
      st.running = true →
      (∀ p ∈ pre, ∀ m, p.2 = some m → m.mtype ≠ .CoordinatorExit) →
      em.mtype = .CoordinatorExit →
      (clientProtocol st (pre ++ (tx, some em) :: rest)).2.length =
        pre.length + 1) := by
  constructor
  · intro st m
    refine ⟨?_, ?_, ?_, ?_⟩
    · intro hm; simp [recvResult, hm]
    · intro hm; simp [recvResult, hm]
    · intro hm; simp [recvResult, hm]
    · intro h1 h2 h3
      cases hm : m.mtype <;> simp_all [recvResult]
  · intro st pre tx em rest hrun hne hem
    unfold clientProtocol
    exact clientLoop_stops_after_exit pre st tx em rest hrun hne hem

/-- C8 witness: a commit result bumps `successful`; and with one
non-exit result before the exit message, exactly two requests are
issued. -/
theorem client_result_classification_witness :
    recvResult (clientInit 0 true)
      (some ⟨.ClientResultCommit, 1, "coordinator", 0⟩) =
      { clientInit 0 true with
        successful := (clientInit 0 true).successful + 1 } ∧
    (clientProtocol (clientInit 0 true)
      ([(1, some ⟨.ClientResultAbort, 1, "coordinator", 0⟩)] ++
        (2, some ⟨.CoordinatorExit, -1, "coordinator", -1⟩) ::
        [(3, none)])).2.length =
      [(1, some (⟨.ClientResultAbort, 1, "coordinator", 0⟩ :
        ProtocolMessage))].length + 1 :=
  ⟨(client_result_classification.1 (clientInit 0 true)
      ⟨.ClientResultCommit, 1, "coordinator", 0⟩).1 rfl,
   client_result_classification.2 (clientInit 0 true)
     [(1, some ⟨.ClientResultAbort, 1, "coordinator", 0⟩)]
     2 ⟨.CoordinatorExit, -1, "coordinator", -1⟩ [(3, none)]
     rfl (by decide) rfl⟩

/-- The workload loop never touches `senderClosed`. -/
lemma clientLoop_senderClosed :
    ∀ (evs : List (Int × Option ProtocolMessage)) (st : ClientState),
      (clientLoop st evs).1.senderClosed = st.senderClosed := by
  intro evs
  induction evs with
  | nil => intro st; rfl
  | cons e rest ih =>
    intro st
    cases e with
    | mk tx rep =>
      by_cases hrun : st.running = true
      · rw [clientLoop, if_pos hrun]
        have hrr : (recvResult { st with opid := st.opid + 1 } rep).senderClosed
            = st.senderClosed := by
          cases rep with
          | none => rfl
          | some m => cases hm : m.mtype <;> simp [recvResult, hm]
        rw [ih]
        exact hrr
      · rw [clientLoop, if_neg hrun]

/-- C9: `Client::protocol` does not close the outbound endpoint before
spin-waiting — the statement `drop(&self.ports.0)` drops only a
temporary shared reference, a no-op on the `Sender` — so after a full
concrete run the endpoint is still open (`senderClosed = false`), and in
general the protocol leaves `senderClosed` exactly as it found it. -/
theorem client_protocol_never_closes_sender :
    (∀ (st : ClientState) (evs : List (Int × Option ProtocolMessage)),
      (clientProtocol st evs).1.senderClosed = st.senderClosed) ∧
    (clientProtocol (clientInit 0 true)
      [(1, some ⟨.ClientResultCommit, 1, "coordinator", 0⟩)]).1.senderClosed =
      false := by
  constructor
  · intro st evs
    unfold clientProtocol dropRef
    exact clientLoop_senderClosed evs st
  · decide

end TwoPC
